import Mathlib

/-!
# Verification of the LiveAzaan streaming core

A shallow embedding of the LiveAzaan repository's core modules
(`priority.py`, `noise_reduction.py`, `stream_sender.py`, the
stream-related handlers of `main.py` and `offline_player.py`) together
with theorems settling the specification claims about them.

Conventions of the embedding:
* Python `bytes` values are `List Nat` (each stored byte is its value
  modulo 256; masking is applied where a byte is read as part of a sample).
* Python `int` is `Int`; machine-level sample decoding is made explicit.
* Fallible operations (code that can raise) return `Option`/`Except`.
* Stateful methods are state-passing functions; a method that both
  returns a value and keeps the object's state returns a pair.
-/

namespace LiveAzaan

/-! ## String comparison

Python compares strings lexicographically by Unicode code point.  We
embed that as a boolean strict comparison on `List Char` (Lean strings
are lists of Unicode scalar values, compared through `Char.toNat`).
It is later related to Mathlib's order on `String`.
-/

/-- Strict lexicographic comparison of two character lists by code point:
the embedding of Python's `<` on strings. -/
def strLtb : List Char → List Char → Bool
  | [], [] => false
  | [], _ :: _ => true
  | _ :: _, [] => false
  | a :: as, b :: bs =>
    if a.toNat < b.toNat then true
    else if b.toNat < a.toNat then false
    else strLtb as bs

/-! ## Priority registry (`src/LiveAzaan/priority.py`)

`MasjidPriority` is a `@dataclass(order=True)`, so Python compares two
records as the tuples `(priority, masjid_id, enabled)`, lexicographically,
with `False < True` on booleans and code-point order on strings.
-/

/-- The `MasjidPriority` dataclass: fields in source order
`priority : int`, `masjid_id : str`, `enabled : bool = True`. -/
structure MasjidPriority where
  priority : Int
  masjid_id : String
  enabled : Bool
  deriving DecidableEq

/-- The `<=` comparison on `MasjidPriority` records generated by
`@dataclass(order=True)`: lexicographic on the field tuple
`(priority, masjid_id, enabled)`, with `False < True` on booleans. -/
def mpLeb (a b : MasjidPriority) : Bool :=
  decide (a.priority < b.priority) ||
    (decide (a.priority = b.priority) &&
      (strLtb a.masjid_id.data b.masjid_id.data ||
        (decide (a.masjid_id = b.masjid_id) && (!a.enabled || b.enabled))))

/-- The record order as a proposition. -/
def mpLe (a b : MasjidPriority) : Prop :=
  mpLeb a b = true

instance : DecidableRel mpLe :=
  fun a b => inferInstanceAs (Decidable (mpLeb a b = true))

/-- Model of `PriorityManager`: the single field `priority_list`. -/
structure PriorityManager where
  priority_list : List MasjidPriority
  deriving DecidableEq

/-- Model of `PriorityManager.set_priority`: drop every stored entry for
`masjid_id`, append the fresh record, and sort the stored list in place
(`list.sort`, which orders by the dataclass comparison; since the
comparison key is the whole record, any correct sort produces the same
list). -/
def PriorityManager.set_priority (m : PriorityManager) (masjid_id : String)
    (priority : Int) (enabled : Bool := true) : PriorityManager :=
  ⟨List.insertionSort mpLe
    ((m.priority_list.filter (fun p => !decide (p.masjid_id = masjid_id))) ++
      [⟨priority, masjid_id, enabled⟩])⟩

/-- The loop body of `PriorityManager.set_enabled`: walk the stored list
and flip the `enabled` flag of the first record whose `masjid_id` matches
(the loop `break`s after the first hit), leaving everything else alone. -/
def setEnabledFirst (l : List MasjidPriority) (masjid_id : String) (enabled : Bool) :
    List MasjidPriority :=
  match l with
  | [] => []
  | p :: rest =>
    if p.masjid_id = masjid_id then { p with enabled := enabled } :: rest
    else p :: setEnabledFirst rest masjid_id enabled

/-- Model of `PriorityManager.set_enabled`: in-place flag flip of the first
matching entry; a no-op when `masjid_id` is absent. -/
def PriorityManager.set_enabled (m : PriorityManager) (masjid_id : String)
    (enabled : Bool) : PriorityManager :=
  ⟨setEnabledFirst m.priority_list masjid_id enabled⟩

/-- Model of `PriorityManager.highest_priority_live`: iterate over
`sorted(self.priority_list)` (a sorted copy — the stored list is not
touched) and return the `masjid_id` of the first record that is enabled
and contained in `live_masjid_ids`; `None` when no record qualifies.
The method returns its result together with the manager's (unchanged)
state. -/
def PriorityManager.highest_priority_live (m : PriorityManager)
    (live_masjid_ids : List String) : Option String × PriorityManager :=
  (((List.insertionSort mpLe m.priority_list).find?
      (fun p => p.enabled && live_masjid_ids.contains p.masjid_id)).map
    MasjidPriority.masjid_id, m)

/-- One exported dictionary `{"masjid_id": ..., "priority": ..., "enabled": ...}`. -/
structure PriorityDict where
  masjid_id : String
  priority : Int
  enabled : Bool
  deriving DecidableEq

/-- Model of `PriorityManager.as_dicts`: the stored entries in sorted order
(again over a sorted copy), each rendered as a dictionary; returned
together with the manager's (unchanged) state. -/
def PriorityManager.as_dicts (m : PriorityManager) :
    List PriorityDict × PriorityManager :=
  ((List.insertionSort mpLe m.priority_list).map
    (fun p => ⟨p.masjid_id, p.priority, p.enabled⟩), m)

/-- The registry invariant: at most one stored entry per `masjid_id`. -/
def uniqueIds (l : List MasjidPriority) : Prop :=
  (l.map MasjidPriority.masjid_id).Nodup

instance (l : List MasjidPriority) : Decidable (uniqueIds l) :=
  inferInstanceAs (Decidable (l.map MasjidPriority.masjid_id).Nodup)

/-! ## Noise reduction (`src/LiveAzaan/noise_reduction.py`)

The energy gate calls `audioop.rms(audio_data, self.sample_width)`.  We
embed CPython's `audioop.rms`: samples are read little-endian in two's
complement at the configured width; the function raises `audioop.error`
(modelled as `none`) when the width is not 1, 2, 3 or 4 or the buffer is
not a whole number of samples; otherwise it returns
`(unsigned int)sqrt(sum_of_squares / sample_count)`.  The C routine uses
exact double arithmetic for these magnitudes, and
`⌊sqrt (s / n)⌋ = ⌊sqrt (s / n : Nat)⌋` for naturals `s n`, so the value
is `Nat.sqrt (sumSquares / n)`.
-/

/-- Decode one little-endian two's-complement sample from its bytes
(each stored byte is masked to `0 ≤ b < 256`). -/
def signedLE (bytes : List Nat) : Int :=
  let u : Nat := bytes.foldr (fun b acc => acc * 256 + b % 256) 0
  let m : Nat := 256 ^ bytes.length
  if 2 * u < m then (u : Int) else (u : Int) - (m : Int)

/-- All samples of a byte buffer at width `w` (little-endian). -/
def samplesLE (w : Nat) (data : List Nat) : List Int :=
  (List.range (data.length / w)).map (fun i => signedLE ((data.drop (i * w)).take w))

/-- Model of `audioop_check_parameters`: the width must be 1, 2, 3 or 4 and the
buffer a whole number of samples ("not a whole number of frames"). -/
def audioop_check_parameters (len w : Nat) : Bool :=
  (w == 1 || w == 2 || w == 3 || w == 4) && len % w == 0

/-- Model of `audioop.rms(fragment, width)`; `none` models the raised
`audioop.error`. -/
def audioop_rms (data : List Nat) (w : Nat) : Option Nat :=
  if audioop_check_parameters data.length w then
    some (if data.length == 0 then 0
      else Nat.sqrt
        (((samplesLE w data).map (fun v => (v * v).toNat)).sum / (data.length / w)))
  else none

/-- Model of `NoiseReducer` state: constructor defaults `sample_width = 2` and
`gate_threshold = 350`; `rn` is the neural backend's `process_frame`
when the `rnnoise` module was importable at start-up, `none` otherwise. -/
structure NoiseReducer where
  sample_width : Nat := 2
  gate_threshold : Int := 350
  rn : Option (List Nat → List Nat) := none

/-- Model of `NoiseReducer()` with all defaults, as constructed throughout the
repository in an environment without the optional neural backend. -/
def defaultNoiseReducer : NoiseReducer := {}

/-- Model of `NoiseReducer()` in an environment where the optional neural backend
imports; the identity function stands in for the opaque
`RNNoise().process_frame`. -/
def neuralNoiseReducer : NoiseReducer := { rn := some (fun c => c) }

/-- The frame loop of `_reduce_rnnoise`: `for i in range(0, len(audio_data),
frame_size)` slices `audio_data[i : i + frame_size]`, passes a full slice
through `process_frame` and appends a short trailing slice unmodified. -/
def rnnoiseLoop (f : List Nat → List Nat) (frame_size : Nat)
    (audio_data : List Nat) : List Nat :=
  ((List.range ((audio_data.length + frame_size - 1) / frame_size)).map (fun i =>
    let chunk := (audio_data.drop (i * frame_size)).take frame_size
    if chunk.length < frame_size then chunk else f chunk)).flatten

/-- Model of `NoiseReducer._reduce_rnnoise`: frame size is `480 * self.sample_width`;
a zero step would make Python's `range` raise `ValueError` (modelled as
`none`, unreachable for the constructor's positive widths). -/
def NoiseReducer.reduce_rnnoise (r : NoiseReducer) (f : List Nat → List Nat)
    (audio_data : List Nat) : Option (List Nat) :=
  if 480 * r.sample_width = 0 then none
  else some (rnnoiseLoop f (480 * r.sample_width) audio_data)

/-- Model of `NoiseReducer._reduce_noise_gate`: one RMS value over the whole chunk;
strictly below the threshold the chunk becomes zero bytes of the same
length, otherwise it passes through unchanged. -/
def NoiseReducer.reduce_noise_gate (r : NoiseReducer) (audio_data : List Nat) :
    Option (List Nat) :=
  (audioop_rms audio_data r.sample_width).map (fun (rms : Nat) =>
    if (rms : Int) < r.gate_threshold then List.replicate audio_data.length 0
    else audio_data)

/-- Model of `NoiseReducer.reduce_noise`: empty input is returned as is; with a
neural backend the frame loop runs, otherwise the energy gate. -/
def NoiseReducer.reduce_noise (r : NoiseReducer) (audio_data : List Nat) :
    Option (List Nat) :=
  if audio_data.isEmpty then some audio_data
  else
    match r.rn with
    | some f => r.reduce_rnnoise f audio_data
    | none => r.reduce_noise_gate audio_data

/-! ## Stream sender (`src/LiveAzaan/stream_sender.py`)

`LiveStreamSender.start` flips `_running` and spawns one daemon thread
running `_run_stream`; `stop` clears the flag and joins with a 2-second
timeout.  We track the thread handle, the number of worker threads whose
loop may still be executing (`active`), and the total number of threads
ever spawned (`spawned`, numbering the handles).
-/

/-- Model of `LiveStreamSender` session state.  `host`/`port` come from the
constructor; `running` is `_running`, `thread` is `_thread` (numbered by
spawn order), `active` counts workers whose loop is (potentially)
executing, `spawned` counts `Thread.start` calls. -/
structure LiveStreamSender where
  host : String
  port : Int
  running : Bool
  thread : Option Nat
  active : Nat
  spawned : Nat
  deriving DecidableEq

/-- Model of `LiveStreamSender(host, port)`: the constructor stores the endpoint
and starts with `_running = False`, `_thread = None` and no worker. -/
def LiveStreamSender.fresh (host : String) (port : Int) : LiveStreamSender :=
  ⟨host, port, false, none, 0, 0⟩

/-- Model of `LiveStreamSender.start`: returns immediately when `_running` is
already set; otherwise sets the flag and spawns one worker thread. -/
def LiveStreamSender.start (s : LiveStreamSender) : LiveStreamSender :=
  if s.running then s
  else { s with running := true, thread := some s.spawned,
                active := s.active + 1, spawned := s.spawned + 1 }

/-- Model of `LiveStreamSender.stop`: clears `_running` and, when a thread handle
exists, joins it with a bounded timeout.  The join mutates no session
field and the method body cannot raise, so the resulting state only has
the flag cleared. -/
def LiveStreamSender.stop (s : LiveStreamSender) : LiveStreamSender :=
  { s with running := false }

/-- Failures that `_run_stream` can hit: `pyaudio.open` failing, or the
TLS connection failing (unreachable host, certificate or hostname
mismatch). -/
inductive StreamFailure
  | deviceOpenFailure
  | unreachableHost
  | certMismatch
  deriving DecidableEq

/-- What a call to `start` produces: the new session state, the error (if
any) propagated to `start`'s caller, and the error (if any) that occurs
later inside the spawned worker thread. -/
structure StartOutcome where
  state : LiveStreamSender
  raisedToCaller : Option StreamFailure
  workerFailure : Option StreamFailure
  deriving DecidableEq

/-- Model of `LiveStreamSender.start` in an environment where running
`_run_stream` would hit `runFailure`.  The body of `start` only spawns
the daemon thread and returns; it contains no `try`/`except` and a Python
exception raised inside a thread stays in that thread, so the failure is
never propagated to the caller — it happens in the worker after `start`
has returned.  When the session is already running no thread is spawned
and nothing fails. -/
def LiveStreamSender.startWithEnv (s : LiveStreamSender)
    (runFailure : Option StreamFailure) : StartOutcome :=
  if s.running then ⟨s, none, none⟩
  else ⟨s.start, none, runFailure⟩

/-! ## Application-level stream handlers (`src/LiveAzaan/main.py`)

`LiveAzaanApp.listen_live`, `play_offline` and `start_azaan`, together
with `offline_player.py`.  Only the fields these handlers touch are
modelled: the `live_azaan` screen's `stream_status` string and the track
the offline player is currently playing.
-/

/-- Model of Python's `int(s)` on a string: optional surrounding
whitespace, an optional sign, then one or more ASCII digits; `none`
models the raised `ValueError`.  (Underscore digit separators and
non-ASCII digits are not modelled; no caller uses them.) -/
def pyDigits (cs : List Char) : Option Nat :=
  if cs.isEmpty then none
  else if cs.all (fun c => c.isDigit) then
    some (cs.foldl (fun a c => a * 10 + (c.toNat - 48)) 0)
  else none

/-- Strip leading and trailing whitespace, as `int(s)` does before
parsing. -/
def trimChars (cs : List Char) : List Char :=
  ((cs.dropWhile (fun c => c.isWhitespace)).reverse.dropWhile
    (fun c => c.isWhitespace)).reverse

/-- Model of `int(s)` for a decimal string literal. -/
def pyParseInt (s : String) : Option Int :=
  match trimChars s.data with
  | '-' :: rest => (pyDigits rest).map (fun n => -(n : Int))
  | '+' :: rest => (pyDigits rest).map (fun n => (n : Int))
  | cs => (pyDigits cs).map (fun n => (n : Int))

/-- The `tracks` table of `OfflineAzaanPlayer("assets")`: prayer name to
asset path. -/
def offlineTracks : List (String × String) :=
  [("fajr", "assets/fajr.mp3"), ("zuhr", "assets/zuhr.mp3"),
   ("asr", "assets/asr.mp3"), ("maghrib", "assets/maghrib.mp3"),
   ("isha", "assets/isha.mp3")]

/-- Model of `str.lower()` restricted to ASCII letters (the prayer names in use
are ASCII). -/
def lowerChars (cs : List Char) : List Char :=
  cs.map (fun c =>
    if 65 ≤ c.toNat ∧ c.toNat ≤ 90 then Char.ofNat (c.toNat + 32) else c)

/-- Model of `self.tracks.get(prayer_name.lower())`. -/
def tracksGet (prayer_name : String) : Option String :=
  offlineTracks.lookup (String.mk (lowerChars prayer_name.data))

/-- Model of `OfflineAzaanPlayer.play`: look the prayer up, raise
`FileNotFoundError` (modelled as `.error ()`) when no track is mapped or
the file does not exist on disk (`pathExists` models `Path.exists`),
otherwise load and play the file, returning its path. -/
def offlinePlay (pathExists : String → Bool) (prayer_name : String) :
    Except Unit String :=
  match tracksGet prayer_name with
  | none => .error ()
  | some path => if pathExists path then .ok path else .error ()

/-- The application state touched by the stream handlers: the
`live_azaan` screen's `stream_status` and the asset the offline player is
playing. -/
structure AppState where
  stream_status : String
  played_track : Option String
  deriving DecidableEq

/-- Model of `LiveAzaanApp.play_offline`: delegate to the offline player; a
`FileNotFoundError` is caught and rendered into `stream_status`
(`str(exc)` is the message the player raised). -/
def play_offline (pathExists : String → Bool) (st : AppState)
    (prayer_name : String) : AppState :=
  match offlinePlay pathExists prayer_name with
  | .ok path => { st with played_track := some path }
  | .error _ =>
    { st with stream_status := "Offline track not found for prayer: " ++ prayer_name }

/-- Errors the `listen_live` handler catches. -/
inductive StreamError
  | osError
  deriving DecidableEq

/-- Modelled from the spec: `stream_receiver.py` (class
`LiveStreamReceiver`, imported by `main.py`) is not among the source
files.  Per the specification, `start()` establishes an encrypted,
hostname-verified connection to the configured endpoint and "on any
failure to establish the connection (refused, timeout, certificate
failure), the failure must be reported synchronously to the caller" — an
`OSError`.  The environment's connection outcome is the `reachable`
parameter. -/
def receiverStart (reachable : Bool) : Except StreamError Unit :=
  if reachable then .ok () else .error .osError

/-- Model of `LiveAzaanApp.listen_live(host, port)`: `int(port)` may raise
`ValueError`; constructing and starting the receiver may raise `OSError`.
Either exception is caught: `stream_status` becomes
`"Listen failed: ..."` (exception text abbreviated to the exception
class) and `play_offline("fajr")` runs.  On success `stream_status`
becomes `"Listening"`. -/
def listen_live (pathExists : String → Bool) (reachable : Bool)
    (st : AppState) (portStr : String) : AppState :=
  match pyParseInt portStr with
  | none => play_offline pathExists
      { st with stream_status := "Listen failed: ValueError" } "fajr"
  | some _ =>
    match receiverStart reachable with
    | .error _ => play_offline pathExists
        { st with stream_status := "Listen failed: OSError" } "fajr"
    | .ok _ => { st with stream_status := "Listening" }

/-- Model of `LiveAzaanApp.start_azaan(host, port, masjid_id)`: refuse unless the
role is `"maulvi"`; `int(port)` may raise `ValueError`, which is caught
and rendered; otherwise a `LiveStreamSender` is constructed and started —
`start` itself cannot raise (its failures stay in the worker thread), so
the status always becomes `"Broadcasting live"`.  The trailing
`_update_masjid_live` call only talks to the external registry and
touches none of the modelled state. -/
def start_azaan (runFailure : Option StreamFailure) (st : AppState)
    (role host portStr : String) : AppState × Option StartOutcome :=
  if role ≠ "maulvi" then
    ({ st with stream_status := "Switch role to Maulvi first" }, none)
  else
    match pyParseInt portStr with
    | none => ({ st with stream_status := "Start failed: ValueError" }, none)
    | some port =>
      (({ st with stream_status := "Broadcasting live" }),
        some ((LiveStreamSender.fresh host port).startWithEnv runFailure))

/-! ## Order-theoretic facts about the dataclass comparison -/

/-- Unfolding of `mpLe` into its propositional components. -/
theorem mpLe_iff (a b : MasjidPriority) :
    mpLe a b ↔ a.priority < b.priority ∨
      (a.priority = b.priority ∧
        (strLtb a.masjid_id.data b.masjid_id.data = true ∨
          (a.masjid_id = b.masjid_id ∧ (a.enabled = true → b.enabled = true)))) := by
  simp only [mpLe, mpLeb, Bool.or_eq_true, Bool.and_eq_true, decide_eq_true_eq,
    Bool.not_eq_true', Bool.or_eq_true]
  constructor
  · rintro (h | ⟨h1, h2 | ⟨h3, h4⟩⟩)
    · exact Or.inl h
    · exact Or.inr ⟨h1, Or.inl h2⟩
    · refine Or.inr ⟨h1, Or.inr ⟨h3, fun he => ?_⟩⟩
      rcases h4 with h4 | h4
      · rw [he] at h4; cases h4
      · exact h4
  · rintro (h | ⟨h1, h2 | ⟨h3, h4⟩⟩)
    · exact Or.inl h
    · exact Or.inr ⟨h1, Or.inl h2⟩
    · refine Or.inr ⟨h1, Or.inr ⟨h3, ?_⟩⟩
      cases he : a.enabled with
      | false => exact Or.inl rfl
      | true => exact Or.inr (h4 he)

theorem strLtb_trans {a b c : List Char} (hab : strLtb a b = true)
    (hbc : strLtb b c = true) : strLtb a c = true := by
  induction a generalizing b c with
  | nil =>
    cases c with
    | nil =>
      cases b with
      | nil => exact hbc
      | cons y ys => simp [strLtb] at hbc
    | cons z zs => simp [strLtb]
  | cons x xs ih =>
    cases b with
    | nil => simp [strLtb] at hab
    | cons y ys =>
      cases c with
      | nil => simp [strLtb] at hbc
      | cons z zs =>
        simp only [strLtb] at hab hbc ⊢
        split at hab
        · -- x < y
          rename_i hxy
          split at hbc
          · rename_i hyz
            rw [if_pos (Nat.lt_trans hxy hyz)]
          · split at hbc
            · cases hbc
            · rename_i hzy hyz
              have hyz' : y.toNat = z.toNat := by omega
              rw [if_pos (hyz' ▸ hxy)]
        · split at hab
          · cases hab
          · rename_i hyx hxy
            have hxy' : x.toNat = y.toNat := by omega
            split at hbc
            · rename_i hyz
              rw [if_pos (hxy' ▸ hyz)]
            · split at hbc
              · cases hbc
              · rename_i hzy hyz
                have hyz' : y.toNat = z.toNat := by omega
                rw [if_neg (by omega), if_neg (by omega)]
                exact ih hab hbc

theorem strLtb_eq_of_not {a b : List Char} (hab : strLtb a b = false)
    (hba : strLtb b a = false) : a = b := by
  induction a generalizing b with
  | nil =>
    cases b with
    | nil => rfl
    | cons y ys => simp [strLtb] at hab
  | cons x xs ih =>
    cases b with
    | nil => simp [strLtb] at hba
    | cons y ys =>
      simp only [strLtb] at hab hba
      split at hab
      · cases hab
      · split at hab
        · rename_i hyx
          rw [if_pos hyx] at hba
          cases hba
        · rename_i hyx hxy
          have hxy' : x.toNat = y.toNat := by omega
          have hx : x = y := Char.eq_of_val_eq (UInt32.ext hxy')
          rw [if_neg hxy, if_neg hyx] at hba
          rw [hx, ih hab hba]

instance : IsTrans MasjidPriority mpLe := by
  constructor
  intro a b c hab hbc
  rw [mpLe_iff] at hab hbc ⊢
  rcases hab with hab | ⟨hp1, hab⟩
  · rcases hbc with hbc | ⟨hp2, _⟩
    · exact Or.inl (lt_trans hab hbc)
    · exact Or.inl (hp2 ▸ hab)
  · rcases hbc with hbc | ⟨hp2, hbc⟩
    · exact Or.inl (hp1 ▸ hbc)
    · refine Or.inr ⟨hp1.trans hp2, ?_⟩
      rcases hab with hab | ⟨hid1, hen1⟩
      · rcases hbc with hbc | ⟨hid2, _⟩
        · exact Or.inl (strLtb_trans hab hbc)
        · exact Or.inl (hid2 ▸ hab)
      · rcases hbc with hbc | ⟨hid2, hen2⟩
        · exact Or.inl (hid1 ▸ hbc)
        · exact Or.inr ⟨hid1.trans hid2, fun h => hen2 (hen1 h)⟩

instance : IsTotal MasjidPriority mpLe := by
  constructor
  intro a b
  rw [mpLe_iff, mpLe_iff]
  rcases lt_trichotomy a.priority b.priority with hp | hp | hp
  · exact Or.inl (Or.inl hp)
  · rcases Bool.dichotomy (strLtb a.masjid_id.data b.masjid_id.data) with hs | hs
    · rcases Bool.dichotomy (strLtb b.masjid_id.data a.masjid_id.data) with hs' | hs'
      · have hid : a.masjid_id = b.masjid_id := congrArg String.mk (strLtb_eq_of_not hs hs')
        rcases Bool.dichotomy a.enabled with he | he
        · exact Or.inl (Or.inr ⟨hp, Or.inr ⟨hid, fun h => by rw [he] at h; cases h⟩⟩)
        · exact Or.inr (Or.inr ⟨hp.symm, Or.inr ⟨hid.symm, fun _ => he⟩⟩)
      · exact Or.inr (Or.inr ⟨hp.symm, Or.inl hs'⟩)
    · exact Or.inl (Or.inr ⟨hp, Or.inl hs⟩)
  · exact Or.inr (Or.inl hp)

/-! ## Facts about the noise-reduction pipeline -/

theorem sqrt_eq_of_bounds {a n : Nat} (h1 : a * a ≤ n)
    (h2 : n < (a + 1) * (a + 1)) : Nat.sqrt n = a :=
  (Nat.eq_sqrt.mpr ⟨h1, h2⟩).symm

/-- Evaluation rule for `audioop_rms` on a concrete well-formed buffer. -/
theorem audioop_rms_eval (data : List Nat) (w s n a : Nat)
    (hcheck : audioop_check_parameters data.length w = true)
    (hne : data.length ≠ 0)
    (hsum : ((samplesLE w data).map (fun v => (v * v).toNat)).sum = s)
    (hq : data.length / w = n)
    (h1 : a * a ≤ s / n) (h2 : s / n < (a + 1) * (a + 1)) :
    audioop_rms data w = some a := by
  unfold audioop_rms
  rw [if_pos hcheck, if_neg (by simpa using hne)]
  rw [hsum, hq]
  exact congrArg some (sqrt_eq_of_bounds h1 h2)

/-- A buffer shorter than one frame passes through the frame loop whole. -/
theorem rnnoiseLoop_of_lt (f : List Nat → List Nat) (fs : Nat)
    (data : List Nat) (h : data.length < fs) : rnnoiseLoop f fs data = data := by
  unfold rnnoiseLoop
  cases data with
  | nil =>
    have h0 : (List.length ([] : List Nat) + fs - 1) / fs = 0 :=
      Nat.div_eq_of_lt (by simp at h ⊢; omega)
    rw [h0]
    simp
  | cons x xs =>
    have h1 : ((x :: xs).length + fs - 1) / fs = 1 := by
      have hl : 0 < (x :: xs).length := by simp
      exact Nat.div_eq_of_lt_le (by omega) (by omega)
    rw [h1, show List.range 1 = [0] from rfl]
    simp only [List.map_cons, List.map_nil, List.flatten_cons, List.flatten_nil,
      List.append_nil, Nat.zero_mul, List.drop_zero]
    rw [List.take_of_length_le (Nat.le_of_lt h), if_pos h]

/-- Peeling one full frame off the front of the frame loop. -/
theorem rnnoiseLoop_peel (f : List Nat → List Nat) (fs : Nat) (hfs : 0 < fs)
    (data : List Nat) (h : fs ≤ data.length) :
    rnnoiseLoop f fs data = f (data.take fs) ++ rnnoiseLoop f fs (data.drop fs) := by
  unfold rnnoiseLoop
  have hdl : (data.drop fs).length = data.length - fs := by simp
  have hk : (data.length + fs - 1) / fs = ((data.drop fs).length + fs - 1) / fs + 1 := by
    rw [hdl]
    have h1 : data.length + fs - 1 = ((data.length - fs) + fs - 1) + fs := by omega
    rw [h1, Nat.add_div_right _ hfs]
  rw [hk, List.range_succ_eq_map]
  simp only [List.map_cons, List.flatten_cons, List.map_map, Nat.zero_mul,
    List.drop_zero]
  have hheadlen : (data.take fs).length = fs := by
    simp [Nat.min_eq_left h]
  rw [if_neg (by rw [hheadlen]; exact lt_irrefl fs)]
  refine congrArg (f (data.take fs) ++ ·) (congrArg List.flatten ?_)
  apply List.map_congr_left
  intro i _
  have hdrop : data.drop (Nat.succ i * fs) = (data.drop fs).drop (i * fs) := by
    rw [List.drop_drop, Nat.succ_mul, Nat.add_comm fs (i * fs)]
  simp only [Function.comp_apply, hdrop]

/-- The frame loop splits the buffer into processed full frames followed
by the untouched trailing partial frame. -/
theorem rnnoiseLoop_spec (f : List Nat → List Nat) (fs : Nat) (hfs : 0 < fs)
    (data : List Nat) :
    rnnoiseLoop f fs data =
      ((List.range (data.length / fs)).map
        (fun i => f ((data.drop (i * fs)).take fs))).flatten ++
        data.drop (fs * (data.length / fs)) := by
  generalize hn : data.length = n
  induction n using Nat.strong_induction_on generalizing data with
  | _ n ih =>
    by_cases h : data.length < fs
    · rw [rnnoiseLoop_of_lt f fs data h]
      rw [← hn, Nat.div_eq_of_lt h]
      simp
    · push_neg at h
      rw [rnnoiseLoop_peel f fs hfs data h]
      have hdl : (data.drop fs).length = data.length - fs := by simp
      have hlt : (data.drop fs).length < n := by omega
      rw [ih _ hlt (data.drop fs) rfl]
      have hq : data.length / fs = (data.drop fs).length / fs + 1 := by
        rw [hdl]
        have h1 : data.length = (data.length - fs) + fs := by omega
        conv_lhs => rw [h1]
        rw [Nat.add_div_right _ hfs]
      rw [← hn, hq, List.range_succ_eq_map]
      simp only [List.map_cons, List.flatten_cons, List.map_map, Nat.zero_mul,
        List.drop_zero, List.append_assoc]
      refine congrArg (f (data.take fs) ++ ·) ?_
      have hframes :
          List.map (fun i => f (((data.drop fs).drop (i * fs)).take fs))
              (List.range ((data.drop fs).length / fs)) =
            List.map ((fun i => f ((data.drop (i * fs)).take fs)) ∘ Nat.succ)
              (List.range ((data.drop fs).length / fs)) := by
        apply List.map_congr_left
        intro i _
        have hdrop : data.drop (Nat.succ i * fs) = (data.drop fs).drop (i * fs) := by
          rw [List.drop_drop, Nat.succ_mul, Nat.add_comm fs (i * fs)]
        simp only [Function.comp_apply, hdrop]
      have htail : (data.drop fs).drop (fs * ((data.drop fs).length / fs)) =
          data.drop (fs * ((data.drop fs).length / fs + 1)) := by
        rw [List.drop_drop, Nat.mul_succ,
          Nat.add_comm fs (fs * ((data.drop fs).length / fs))]
      rw [hframes, htail]

/-- The frame loop preserves total length whenever the suppressor
preserves frame length. -/
theorem rnnoiseLoop_length (f : List Nat → List Nat) (fs : Nat) (hfs : 0 < fs)
    (hf : ∀ c, (f c).length = c.length) (data : List Nat) :
    (rnnoiseLoop f fs data).length = data.length := by
  generalize hn : data.length = n
  induction n using Nat.strong_induction_on generalizing data with
  | _ n ih =>
    by_cases h : data.length < fs
    · rw [rnnoiseLoop_of_lt f fs data h, hn]
    · push_neg at h
      rw [rnnoiseLoop_peel f fs hfs data h]
      have hdl : (data.drop fs).length = data.length - fs := by simp
      have hlt : (data.drop fs).length < n := by omega
      rw [List.length_append, hf, ih _ hlt (data.drop fs) rfl]
      have htl : (data.take fs).length = fs := by simp [Nat.min_eq_left h]
      omega

/-! ## Claims about the noise reducer -/

/-- Claim C3: in energy-gate mode, for every non-empty chunk whose RMS
loudness is defined, a value strictly below the configured threshold
makes `reduce_noise` return all-zero bytes of the input's length, while
a value at or above the threshold makes it return the input unchanged
byte-for-byte (the threshold itself is not muted). -/
theorem claim3_noise_gate (r : NoiseReducer) (audio_data : List Nat) (rms : Nat)
    (hmode : r.rn = none) (hne : audio_data ≠ [])
    (hrms : audioop_rms audio_data r.sample_width = some rms) :
    ((rms : Int) < r.gate_threshold →
      r.reduce_noise audio_data = some (List.replicate audio_data.length 0)) ∧
    (r.gate_threshold ≤ (rms : Int) →
      r.reduce_noise audio_data = some audio_data) := by
  have hred : r.reduce_noise audio_data = r.reduce_noise_gate audio_data := by
    unfold NoiseReducer.reduce_noise
    rw [if_neg (by simpa using hne), hmode]
  have hgate : r.reduce_noise_gate audio_data =
      some (if (rms : Int) < r.gate_threshold then
        List.replicate audio_data.length 0 else audio_data) := by
    unfold NoiseReducer.reduce_noise_gate
    rw [hrms, Option.map_some']
  constructor
  · intro hlt
    rw [hred, hgate, if_pos hlt]
  · intro hge
    rw [hred, hgate, if_neg (not_lt.mpr hge)]

/-- Witness for C3 at the chunk `[1, 0]` (one 16-bit sample of value 1,
RMS 1, below the default threshold 350). -/
theorem claim3_noise_gate_witness :
    defaultNoiseReducer.rn = none ∧ ([1, 0] : List Nat) ≠ [] ∧
    audioop_rms [1, 0] defaultNoiseReducer.sample_width = some 1 ∧
    ((((1 : Nat) : Int) < defaultNoiseReducer.gate_threshold →
      defaultNoiseReducer.reduce_noise [1, 0] =
        some (List.replicate ([1, 0] : List Nat).length 0)) ∧
    (defaultNoiseReducer.gate_threshold ≤ ((1 : Nat) : Int) →
      defaultNoiseReducer.reduce_noise [1, 0] = some [1, 0])) :=
  ⟨rfl, by decide, by decide,
    claim3_noise_gate defaultNoiseReducer [1, 0] 1 rfl (by decide) (by decide)⟩

/-- Claim C4: in neural mode, for every input whose length is not a
multiple of the frame size (480 samples times the sample width), the
output is the concatenation of the suppressor's output for each full
frame followed, byte-for-byte, by the input's trailing partial frame,
whose length is the input length modulo the frame size. -/
theorem claim4_rnnoise_tail (r : NoiseReducer) (f : List Nat → List Nat)
    (audio_data : List Nat) (hmode : r.rn = some f) (hw : 0 < r.sample_width)
    (hmod : audio_data.length % (480 * r.sample_width) ≠ 0) :
    r.reduce_noise audio_data = some (
      ((List.range (audio_data.length / (480 * r.sample_width))).map
        (fun i => f ((audio_data.drop (i * (480 * r.sample_width))).take
          (480 * r.sample_width)))).flatten ++
      audio_data.drop ((480 * r.sample_width) *
        (audio_data.length / (480 * r.sample_width)))) ∧
    (audio_data.drop ((480 * r.sample_width) *
        (audio_data.length / (480 * r.sample_width)))).length =
      audio_data.length % (480 * r.sample_width) := by
  have hfs : 0 < 480 * r.sample_width := Nat.mul_pos (by norm_num) hw
  have hne : audio_data ≠ [] := by
    intro hcon
    rw [hcon] at hmod
    simp at hmod
  constructor
  · unfold NoiseReducer.reduce_noise
    rw [if_neg (by simpa using hne), hmode]
    show r.reduce_rnnoise f audio_data = _
    unfold NoiseReducer.reduce_rnnoise
    rw [if_neg (Nat.pos_iff_ne_zero.mp hfs)]
    exact congrArg some (rnnoiseLoop_spec f _ hfs audio_data)
  · rw [List.length_drop, Nat.mod_def]

/-- Witness for C4 at the one-byte input `[7]` (shorter than one frame,
so the whole input is the trailing partial frame) with the identity
suppressor. -/
theorem claim4_rnnoise_tail_witness :
    (0 : Nat) < neuralNoiseReducer.sample_width ∧
    ([7] : List Nat).length % (480 * neuralNoiseReducer.sample_width) ≠ 0 ∧
    neuralNoiseReducer.reduce_noise [7] = some [7] := by
  refine ⟨by decide, by decide, ?_⟩
  have h := claim4_rnnoise_tail neuralNoiseReducer (fun c => c) [7] rfl
    (by decide) (by decide)
  simpa using h.1

/-- Claim C9 counterexample: the conditioner is not total — in energy-gate
mode the one-byte input `[0]` makes `audioop.rms` raise `audioop.error`
("not a whole number of frames"), so `reduce_noise` fails rather than
returning same-length output. -/
theorem claim9_counterexample :
    defaultNoiseReducer.reduce_noise [0] = none := by decide

/-- Claim C9 (amended): the empty input returns the empty output
unconditionally in both modes; in energy-gate mode the conditioner
succeeds with same-length output for every input that is a whole number
of samples at a valid width; in neural mode it succeeds for every input
(with same-length output whenever the suppressor preserves frame
length). -/
theorem claim9_same_length (r : NoiseReducer) (audio_data : List Nat) :
    (r.reduce_noise [] = some []) ∧
    (r.rn = none →
      audioop_check_parameters audio_data.length r.sample_width = true →
      ∃ out, r.reduce_noise audio_data = some out ∧
        out.length = audio_data.length) ∧
    (∀ f, r.rn = some f → 0 < r.sample_width →
      ∃ out, r.reduce_noise audio_data = some out ∧
        ((∀ c, (f c).length = c.length) → out.length = audio_data.length)) := by
  refine ⟨rfl, ?_, ?_⟩
  · intro hmode hcheck
    by_cases hnil : audio_data = []
    · subst hnil
      exact ⟨[], rfl, rfl⟩
    · have hred : r.reduce_noise audio_data = r.reduce_noise_gate audio_data := by
        unfold NoiseReducer.reduce_noise
        rw [if_neg (by simpa using hnil), hmode]
      have hrms : ∃ v, audioop_rms audio_data r.sample_width = some v := by
        unfold audioop_rms
        rw [if_pos hcheck]
        exact ⟨_, rfl⟩
      obtain ⟨v, hv⟩ := hrms
      rw [hred]
      unfold NoiseReducer.reduce_noise_gate
      rw [hv, Option.map_some']
      refine ⟨_, rfl, ?_⟩
      by_cases hlt : (v : Int) < r.gate_threshold
      · rw [if_pos hlt, List.length_replicate]
      · rw [if_neg hlt]
  · intro f hmode hw
    by_cases hnil : audio_data = []
    · subst hnil
      exact ⟨[], rfl, fun _ => rfl⟩
    · have hfs : 0 < 480 * r.sample_width := Nat.mul_pos (by norm_num) hw
      have hred : r.reduce_noise audio_data =
          some (rnnoiseLoop f (480 * r.sample_width) audio_data) := by
        unfold NoiseReducer.reduce_noise
        rw [if_neg (by simpa using hnil), hmode]
        show r.reduce_rnnoise f audio_data = _
        unfold NoiseReducer.reduce_rnnoise
        rw [if_neg (Nat.pos_iff_ne_zero.mp hfs)]
      exact ⟨_, hred, fun hf => rnnoiseLoop_length f _ hfs hf audio_data⟩

/-- Witness for C9 (amended) in gate mode at `[1, 0]` and in neural mode
at `[7]` via the theorem's conclusion instantiated at
`defaultNoiseReducer`. -/
theorem claim9_same_length_witness :
    audioop_check_parameters ([1, 0] : List Nat).length
      defaultNoiseReducer.sample_width = true ∧
    ∃ out, defaultNoiseReducer.reduce_noise [1, 0] = some out ∧
      out.length = ([1, 0] : List Nat).length := by
  exact ⟨by decide, (claim9_same_length defaultNoiseReducer [1, 0]).2.1 rfl (by decide)⟩

/-! ## Claims about the priority registry -/

/-- A successful `find?` splits its list into a prefix of failures, the
hit, and a remainder. -/
theorem find?_decomp {α : Type} (p : α → Bool) {l : List α} {a : α}
    (h : l.find? p = some a) :
    ∃ l₁ l₂, l = l₁ ++ a :: l₂ ∧ p a = true ∧ ∀ x ∈ l₁, p x = false := by
  induction l with
  | nil => simp at h
  | cons b t ih =>
    by_cases hb : p b = true
    · rw [List.find?_cons_of_pos _ hb] at h
      obtain rfl : b = a := by injection h
      exact ⟨[], t, rfl, hb, by simp⟩
    · rw [List.find?_cons_of_neg _ (by simpa using hb)] at h
      obtain ⟨l₁, l₂, rfl, hpa, hneg⟩ := ih h
      refine ⟨b :: l₁, l₂, rfl, hpa, ?_⟩
      intro x hx
      rcases List.mem_cons.mp hx with rfl | hx
      · simpa using hb
      · exact hneg x hx

/-- The membership test used by `highest_priority_live`. -/
theorem live_pred_iff (live : List String) (q : MasjidPriority) :
    (q.enabled && live.contains q.masjid_id) = true ↔
      q.enabled = true ∧ q.masjid_id ∈ live := by
  rw [Bool.and_eq_true]
  exact and_congr Iff.rfl List.elem_iff

/-- Claim C1: `highest_priority_live` returns the `masjid_id` of the
first record in sort order that is both enabled and live, and `none`
exactly when no stored record is enabled and live; in particular, with
entries `("masjidA", 1, enabled)` and `("masjidB", 2, enabled)` it
returns `"masjidB"` when only `"masjidB"` is live and `"masjidA"` when
both are live. -/
theorem claim1_highest_priority_live (m : PriorityManager) (live : List String) :
    ((m.highest_priority_live live).1 = none →
      ∀ q ∈ m.priority_list, ¬(q.enabled = true ∧ q.masjid_id ∈ live)) ∧
    (∀ s, (m.highest_priority_live live).1 = some s →
      ∃ l₁ q l₂, List.insertionSort mpLe m.priority_list = l₁ ++ q :: l₂ ∧
        q.masjid_id = s ∧ q.enabled = true ∧ q.masjid_id ∈ live ∧
        ∀ x ∈ l₁, ¬(x.enabled = true ∧ x.masjid_id ∈ live)) ∧
    (PriorityManager.highest_priority_live
      ⟨[⟨1, "masjidA", true⟩, ⟨2, "masjidB", true⟩]⟩ ["masjidB"]).1 =
        some "masjidB" ∧
    (PriorityManager.highest_priority_live
      ⟨[⟨1, "masjidA", true⟩, ⟨2, "masjidB", true⟩]⟩
        ["masjidA", "masjidB"]).1 = some "masjidA" := by
  refine ⟨?_, ?_, by decide, by decide⟩
  · intro hnone q hq hlive
    have hfind : (List.insertionSort mpLe m.priority_list).find?
        (fun p => p.enabled && live.contains p.masjid_id) = none := by
      have := hnone
      unfold PriorityManager.highest_priority_live at this
      exact Option.map_eq_none'.mp this
    have hq' : q ∈ List.insertionSort mpLe m.priority_list :=
      ((List.perm_insertionSort mpLe m.priority_list).mem_iff).mpr hq
    have := List.find?_eq_none.mp hfind q hq'
    exact this ((live_pred_iff live q).mpr hlive)
  · intro s hs
    unfold PriorityManager.highest_priority_live at hs
    obtain ⟨q, hfind, rfl⟩ := Option.map_eq_some'.mp hs
    obtain ⟨l₁, l₂, heq, hpa, hneg⟩ := find?_decomp _ hfind
    obtain ⟨hen, hmem⟩ := (live_pred_iff live q).mp hpa
    refine ⟨l₁, q, l₂, heq, rfl, hen, hmem, ?_⟩
    intro x hx hcon
    have := hneg x hx
    rw [(live_pred_iff live x).mpr hcon] at this
    cases this

/-- The export order asserted by the specification: priority ascending,
ties broken by `masjid_id` ascending (code-point lexicographic). -/
def dictLe (a b : PriorityDict) : Prop :=
  a.priority < b.priority ∨
    (a.priority = b.priority ∧
      (a.masjid_id = b.masjid_id ∨ strLtb a.masjid_id.data b.masjid_id.data = true))

/-- Claim C5: `as_dicts` exports the entries ordered by priority
ascending with ties broken by `masjid_id` ascending — the export is a
sorted permutation of the stored entries; the entries
`{(2, "b"), (1, "c"), (1, "a")}` export as
`[("a", 1), ("c", 1), ("b", 2)]`. -/
theorem claim5_export_order (m : PriorityManager) :
    List.Sorted dictLe (m.as_dicts).1 ∧
    (m.as_dicts).1.Perm
      (m.priority_list.map (fun p => ⟨p.masjid_id, p.priority, p.enabled⟩)) ∧
    (PriorityManager.as_dicts
      ⟨[⟨2, "b", true⟩, ⟨1, "c", true⟩, ⟨1, "a", true⟩]⟩).1 =
      [⟨"a", 1, true⟩, ⟨"c", 1, true⟩, ⟨"b", 2, true⟩] := by
  refine ⟨?_, ?_, by decide⟩
  · have hs : List.Sorted mpLe (List.insertionSort mpLe m.priority_list) :=
      List.sorted_insertionSort mpLe m.priority_list
    unfold PriorityManager.as_dicts
    refine List.Pairwise.map _ ?_ hs
    intro a b hab
    rcases (mpLe_iff a b).mp hab with hp | ⟨hp, hid⟩
    · exact Or.inl hp
    · refine Or.inr ⟨hp, ?_⟩
      rcases hid with hlt | ⟨hid, _⟩
      · exact Or.inr hlt
      · exact Or.inl hid
  · exact (List.perm_insertionSort mpLe m.priority_list).map _

/-- Model of `set_enabled` never changes the stored ids. -/
theorem setEnabledFirst_map_id (l : List MasjidPriority) (s : String) (e : Bool) :
    (setEnabledFirst l s e).map MasjidPriority.masjid_id =
      l.map MasjidPriority.masjid_id := by
  induction l with
  | nil => rfl
  | cons q rest ih =>
    unfold setEnabledFirst
    by_cases hq : q.masjid_id = s
    · rw [if_pos hq]
      simp
    · rw [if_neg hq]
      simp [ih]

/-- Claim C6: starting from a registry with at most one entry per id,
`set_priority` (upsert) and `set_enabled` (in-place flip) preserve the
invariant, and upserting the same id twice leaves exactly one entry for
that id, carrying the latest priority. -/
theorem claim6_upsert_invariant (m : PriorityManager) (s : String)
    (p p₁ p₂ : Int) (e : Bool) (h : uniqueIds m.priority_list) :
    uniqueIds (m.set_priority s p e).priority_list ∧
    uniqueIds (m.set_enabled s e).priority_list ∧
    ((m.set_priority s p₁ e).set_priority s p₂ e).priority_list.filter
      (fun q => decide (q.masjid_id = s)) = [⟨p₂, s, e⟩] := by
  refine ⟨?_, ?_, ?_⟩
  · unfold PriorityManager.set_priority uniqueIds
    rw [List.Perm.nodup_iff
      ((List.perm_insertionSort mpLe _).map MasjidPriority.masjid_id)]
    rw [List.map_append, List.nodup_append]
    refine ⟨?_, by simp, ?_⟩
    · exact h.sublist ((List.filter_sublist _).map MasjidPriority.masjid_id)
    · intro a ha hb
      simp only [List.map_cons, List.map_nil, List.mem_singleton] at hb
      obtain ⟨q, hq, rfl⟩ := List.mem_map.mp ha
      have := (List.mem_filter.mp hq).2
      simp only [Bool.not_eq_true', decide_eq_false_iff_not] at this
      exact this hb
  · unfold PriorityManager.set_enabled uniqueIds
    rw [setEnabledFirst_map_id]
    exact h
  · unfold PriorityManager.set_priority
    rw [← List.perm_singleton]
    have hperm := (List.perm_insertionSort mpLe
      (((m.set_priority s p₁ e).priority_list.filter
          (fun q => !decide (q.masjid_id = s))) ++ [⟨p₂, s, e⟩])).filter
      (fun q => decide (q.masjid_id = s))
    refine hperm.trans ?_
    rw [List.filter_append]
    have h1 : ((m.set_priority s p₁ e).priority_list.filter
        (fun q => !decide (q.masjid_id = s))).filter
        (fun q => decide (q.masjid_id = s)) = [] := by
      rw [List.filter_filter]
      apply List.filter_eq_nil_iff.mpr
      intro q _
      by_cases hq : q.masjid_id = s <;> simp [hq]
    rw [h1]
    simp

/-- Witness for C6 at a concrete registry. -/
theorem claim6_upsert_invariant_witness :
    uniqueIds [⟨1, "y", true⟩] ∧
    (uniqueIds ((PriorityManager.set_priority ⟨[⟨1, "y", true⟩]⟩ "x" 5 true)).priority_list ∧
    uniqueIds ((PriorityManager.set_enabled ⟨[⟨1, "y", true⟩]⟩ "x" true)).priority_list ∧
    ((PriorityManager.set_priority
        (PriorityManager.set_priority ⟨[⟨1, "y", true⟩]⟩ "x" 5 true)
        "x" 7 true)).priority_list.filter
      (fun q => decide (q.masjid_id = "x")) = [⟨7, "x", true⟩]) :=
  ⟨by decide, claim6_upsert_invariant ⟨[⟨1, "y", true⟩]⟩ "x" 5 5 7 true (by decide)⟩

/-- Claim C10: the registry queries are read-only — both
`highest_priority_live` and `as_dicts` return the manager state they were
called on, unchanged. -/
theorem claim10_queries_pure (m : PriorityManager) (live : List String) :
    (m.highest_priority_live live).2 = m ∧ (m.as_dicts).2 = m :=
  ⟨rfl, rfl⟩

/-! ## Claims about the stream sender and the application handlers -/

/-- Claim C7: `start` on a running session is a no-op — two consecutive
`start` calls from a stopped session spawn exactly one new worker — and
`stop` on a never-started session returns it unchanged (and without
error, being total). -/
theorem claim7_start_stop (s : LiveStreamSender) (host : String) (port : Int)
    (h : s.running = false) :
    s.start.start = s.start ∧
    s.start.active = s.active + 1 ∧
    (LiveStreamSender.fresh host port).stop = LiveStreamSender.fresh host port := by
  have h1 : s.start =
      { s with running := true, thread := some s.spawned, active := s.active + 1, spawned := s.spawned + 1 } := by
    unfold LiveStreamSender.start
    rw [if_neg (by rw [h]; exact Bool.false_ne_true)]
  refine ⟨?_, ?_, rfl⟩
  · rw [h1]
    unfold LiveStreamSender.start
    rw [if_pos rfl]
  · rw [h1]

/-- Witness for C7 at a freshly constructed session. -/
theorem claim7_start_stop_witness :
    (LiveStreamSender.fresh "relay.example" 8000).running = false ∧
    ((LiveStreamSender.fresh "relay.example" 8000).start.start =
        (LiveStreamSender.fresh "relay.example" 8000).start ∧
      (LiveStreamSender.fresh "relay.example" 8000).start.active =
        (LiveStreamSender.fresh "relay.example" 8000).active + 1 ∧
      (LiveStreamSender.fresh "relay.example" 8000).stop =
        LiveStreamSender.fresh "relay.example" 8000) :=
  ⟨rfl, claim7_start_stop (LiveStreamSender.fresh "relay.example" 8000)
    "relay.example" 8000 rfl⟩

/-- Claim C8 counterexample: starting a fresh sender in an environment
where the connection will fail (unreachable host) surfaces no error to
the caller — `start` returns normally and the failure occurs afterwards
inside the worker thread, contradicting the claim that connection
failures surface at construction or start time. -/
theorem claim8_counterexample :
    ((LiveStreamSender.fresh "relay.example" 9000).startWithEnv
        (some .unreachableHost)).raisedToCaller = none ∧
    ((LiveStreamSender.fresh "relay.example" 9000).startWithEnv
        (some .unreachableHost)).workerFailure = some .unreachableHost :=
  ⟨rfl, rfl⟩

/-- Claim C8 (amended): only an invalid port value surfaces to the caller
(a `ValueError` from `int(port)`, caught by `start_azaan`); once the port
parses, `start` returns normally with status `"Broadcasting live"` and
any device-open or connection failure is left to happen inside the
background worker after `start` has returned. -/
theorem claim8_start_failures (st : AppState) (host portStr : String)
    (runFailure : Option StreamFailure) :
    (pyParseInt portStr = none →
      (start_azaan runFailure st "maulvi" host portStr).1.stream_status =
        "Start failed: ValueError" ∧
      (start_azaan runFailure st "maulvi" host portStr).2 = none) ∧
    (∀ port, pyParseInt portStr = some port →
      (start_azaan runFailure st "maulvi" host portStr).1.stream_status =
        "Broadcasting live" ∧
      ∃ o, (start_azaan runFailure st "maulvi" host portStr).2 = some o ∧
        o.raisedToCaller = none ∧ o.workerFailure = runFailure) := by
  constructor
  · intro hnone
    unfold start_azaan
    rw [if_neg (by simp), hnone]
    exact ⟨rfl, rfl⟩
  · intro port hsome
    unfold start_azaan
    rw [if_neg (by simp), hsome]
    exact ⟨rfl, (LiveStreamSender.fresh host port).startWithEnv runFailure,
      rfl, rfl, rfl⟩

/-- Witness for C8 (amended) at the malformed port string `"notaport"`,
exercising the only failure that does surface to the caller. -/
theorem claim8_start_failures_witness :
    pyParseInt "notaport" = none ∧
    ((start_azaan (some .unreachableHost) ⟨"Idle", none⟩ "maulvi"
        "relay.example" "notaport").1.stream_status =
      "Start failed: ValueError" ∧
    (start_azaan (some .unreachableHost) ⟨"Idle", none⟩ "maulvi"
        "relay.example" "notaport").2 = none) :=
  ⟨by decide, (claim8_start_failures ⟨"Idle", none⟩ "relay.example" "notaport"
    (some .unreachableHost)).1 (by decide)⟩

/-- Claim C2: when constructing or starting the receiver fails — an
invalid port value (`ValueError`) or a connection failure (`OSError`) —
the coordinator falls back to playing the locally stored recording for
the default prayer `"fajr"`; on success it transitions to the
`"Listening"` status without touching offline playback. -/
theorem claim2_listen_failover (pathExists : String → Bool) (reachable : Bool)
    (st : AppState) (portStr : String)
    (hasFajr : pathExists "assets/fajr.mp3" = true) :
    (pyParseInt portStr = none →
      (listen_live pathExists reachable st portStr).played_track =
        some "assets/fajr.mp3" ∧
      (listen_live pathExists reachable st portStr).stream_status =
        "Listen failed: ValueError") ∧
    (reachable = false → ∀ port, pyParseInt portStr = some port →
      (listen_live pathExists reachable st portStr).played_track =
        some "assets/fajr.mp3" ∧
      (listen_live pathExists reachable st portStr).stream_status =
        "Listen failed: OSError") ∧
    (reachable = true → ∀ port, pyParseInt portStr = some port →
      (listen_live pathExists reachable st portStr).stream_status =
        "Listening" ∧
      (listen_live pathExists reachable st portStr).played_track =
        st.played_track) := by
  have hoff : offlinePlay pathExists "fajr" = .ok "assets/fajr.mp3" := by
    show (if pathExists "assets/fajr.mp3" = true
        then (Except.ok "assets/fajr.mp3" : Except Unit String)
        else Except.error ()) = Except.ok "assets/fajr.mp3"
    rw [if_pos hasFajr]
  have hplay : ∀ st' : AppState, play_offline pathExists st' "fajr" =
      { st' with played_track := some "assets/fajr.mp3" } := by
    intro st'
    unfold play_offline
    rw [hoff]
  refine ⟨?_, ?_, ?_⟩
  · intro hnone
    unfold listen_live
    rw [hnone, hplay]
    exact ⟨rfl, rfl⟩
  · intro hr port hsome
    subst hr
    unfold listen_live
    rw [hsome]
    show ((match receiverStart false with
      | .error _ => play_offline pathExists
          { st with stream_status := "Listen failed: OSError" } "fajr"
      | .ok _ => { st with stream_status := "Listening" }) : AppState).played_track
        = _ ∧ _
    rw [show receiverStart false = .error .osError from rfl, hplay]
    exact ⟨rfl, rfl⟩
  · intro hr port hsome
    subst hr
    unfold listen_live
    rw [hsome]
    exact ⟨rfl, rfl⟩

/-- Witness for C2: unreachable endpoint with the fajr asset present. -/
theorem claim2_listen_failover_witness :
    pyParseInt "8000" = some 8000 ∧
    (listen_live (fun _ => true) false ⟨"Idle", none⟩ "8000").played_track =
      some "assets/fajr.mp3" ∧
    (listen_live (fun _ => true) false ⟨"Idle", none⟩ "8000").stream_status =
      "Listen failed: OSError" := by
  have h := (claim2_listen_failover (fun _ => true) false ⟨"Idle", none⟩
    "8000" rfl).2.1 rfl 8000 (by decide)
  exact ⟨by decide, h.1, h.2⟩

end LiveAzaan
